import Mathlib

/-!
Verification of Z9CoachLite (src/app.py) against its specification.

Shallow embedding notes:
- Python float values are modelled as rationals.  Every arithmetic step of
  the embedded functions mirrors the corresponding line of app.py; no
  floating-point rounding is modelled, matching the idealized arithmetic
  the specification states.
- A Python dict from trait keys to values is modelled either as the list of
  its values in insertion order (for functions that read only
  traits.values and len) or as an association list of key and value pairs
  (for functions that read keys).
- The persisted JSON store file is modelled by the outcome of reading and
  parsing it; the serialize and parse round trip of json.dumps and
  json.loads on a list of records is modelled as the identity on that
  list, which is exactly the round trip the spec and claims refer to.
-/

namespace Z9CoachLite

/-- Embeds app.py line 98, compute_trait_score: mean of the trait values,
or 0 for an empty mapping.  The input list is the values of the trait dict
in insertion order; len of the dict equals the length of this list. -/
def compute_trait_score (vals : List ℚ) : ℚ :=
  if vals = [] then 0
  else vals.sum / vals.length

/-- The local variable mean of compute_harmony_ratio (app.py line 110). -/
def harmonyMean (vals : List ℚ) : ℚ :=
  vals.sum / vals.length

/-- The local variable variance of compute_harmony_ratio (app.py
line 113): population variance, mean of squared deviations from mean. -/
def harmonyVariance (vals : List ℚ) : ℚ :=
  (vals.map (fun v => (v - harmonyMean vals) ^ 2)).sum / vals.length

/-- Embeds app.py line 105, compute_harmony_ratio: 0 for an empty mapping
or zero mean, otherwise raw = max 0 (100 - variance * 2) further clamped
into the interval from 0 to 100. -/
def compute_harmony_ratio (vals : List ℚ) : ℚ :=
  if vals = [] then 0
  else if harmonyMean vals = 0 then 0
  else
    let raw := max 0 (100 - harmonyVariance vals * 2)
    max 0 (min 100 raw)

/-- One per-trait line of the summarize_traits report (app.py line 90):
the trait key, its display name, its percentage share and its label. -/
structure TraitLine where
  trait : String
  name : String
  pct : ℚ
  label : String
deriving DecidableEq

/-- The display-name table of summarize_traits (app.py lines 83 to 88). -/
def traitDisplayName (t : String) : String :=
  (([("D", "Dominance"), ("I", "Influence"), ("S", "Steadiness"),
      ("C", "Conscientiousness")]).lookup t).getD ""

/-- Embeds the per-trait loop of summarize_traits (app.py lines 67 to 90)
over the trait dict modelled as an association list in insertion order:
total is the sum of all values, with 1 substituted when that sum is 0
exactly as the Python expression sum or 1.0 does; each of the four keys
D, I, S, C in order yields one line whose percentage is value over total
times 100 and whose label follows the threshold chain of the code.  The
static header and footer sentences of the report are fixed text with no
computational content and are not modelled. -/
def summarize_traits (traits : List (String × ℚ)) : List TraitLine :=
  let total := if (traits.map Prod.snd).sum = 0 then 1 else (traits.map Prod.snd).sum
  ["D", "I", "S", "C"].map fun t =>
    let val := (traits.lookup t).getD 0
    let pct := val / total * 100
    let label :=
      if pct ≥ 40 then "dominant"
      else if pct ≥ 25 then "supporting"
      else if pct > 0 then "background"
      else "inactive"
    { trait := t, name := traitDisplayName t, pct := pct, label := label }

/-- The static trait-to-stage lookup table of the fallback
map_disc_to_stage (app.py lines 36 to 41). -/
def discStageTable : List (String × String) :=
  [("D", "Stage 4 — Initiative vs. Guilt"),
    ("I", "Stage 5 — Identity vs. Role Confusion"),
    ("S", "Stage 6 — Intimacy vs. Isolation"),
    ("C", "Stage 7 — Generativity vs. Stagnation")]

/-- Embeds the expression max traits key traits.get of app.py line 34:
Python max over the dict keys in insertion order D, I, S, C, keyed by the
value, keeps the earliest key on ties, which is a left fold starting from
the first pair that replaces the champion only on a strictly greater
value. -/
def dominantTrait (d i s c : ℚ) : String :=
  (([("I", i), ("S", s), ("C", c)]).foldl
    (fun best p => if p.2 > best.2 then p else best) ("D", d)).1

/-- Embeds the fallback map_disc_to_stage (app.py lines 31 to 42): look
the dominant trait up in the static table, defaulting to the Identity
stage label when it is missing. -/
def map_disc_to_stage (d i s c : ℚ) : String :=
  (discStageTable.lookup (dominantTrait d i s c)).getD
    "Stage 5 — Identity vs. Role Confusion"

/-- Modelled from the claim wording for comparison with the code: the
static table entry of the trait with maximum magnitude, ties broken by
the declaration order D, I, S, C. -/
def stage_spec (d i s c : ℚ) : String :=
  if d ≥ i ∧ d ≥ s ∧ d ≥ c then "Stage 4 — Initiative vs. Guilt"
  else if i ≥ s ∧ i ≥ c then "Stage 5 — Identity vs. Role Confusion"
  else if s ≥ c then "Stage 6 — Intimacy vs. Isolation"
  else "Stage 7 — Generativity vs. Stagnation"

/-- State of the persisted store file (data/lite_checkins.json),
abstracted by the outcome of reading and parsing it: the file may be
absent, present but failing to read or to parse as JSON, present and
parsing to a JSON value that is not a sequence, or present and parsing
to a sequence of records. -/
inductive StoreFile (α : Type) where
  | absent : StoreFile α
  | junk : StoreFile α
  | nonSeq : StoreFile α
  | stored (l : List α) : StoreFile α
deriving DecidableEq

/-- Value returned by load_checkins: the parsed JSON value, which is a
sequence of records or some other JSON value. -/
inductive LoadResult (α : Type) where
  | seq (l : List α) : LoadResult α
  | other : LoadResult α
deriving DecidableEq

/-- Embeds load_checkins (app.py lines 52 to 58): an absent file gives
the empty list, a read or parse failure is swallowed by the except
branch and gives the empty list, and otherwise the parsed JSON value is
returned as is. -/
def load_checkins {α : Type} : StoreFile α → LoadResult α
  | .absent => .seq []
  | .junk => .seq []
  | .nonSeq => .other
  | .stored l => .seq l

/-- Embeds save_checkin (app.py lines 61 to 64): load the current
entries, append the new entry, serialize and overwrite the file.  When
load_checkins yields a non-sequence value the append attribute access
raises, modelled as none; otherwise the file afterwards parses to the
extended sequence, the serialize and parse round trip being the identity
on records. -/
def save_checkin {α : Type} (entry : α) (fs : StoreFile α) : Option (StoreFile α) :=
  match load_checkins fs with
  | .seq l => some (.stored (l ++ [entry]))
  | .other => none

/-- Embeds the recent-history preview of app.py line 309: the Python
slice history from index minus 7, then reversed.  Natural-number
subtraction makes the drop clamp at 0 exactly as the negative slice
index clamps in Python. -/
def recent_history {α : Type} (history : List α) : List α :=
  (history.drop (history.length - 7)).reverse

/-- Outcome of the optional external analyzer call in the analyze block
(app.py lines 226 to 241): the analyzer may be absent, the call (or the
float conversion of its results, which sits inside the same try) may
raise, or the call returns a mapping from which a trait score and a
harmony ratio are extracted, a missing key defaulting to 0 via get. -/
inductive AnalyzerOutcome where
  | absent : AnalyzerOutcome
  | raises : AnalyzerOutcome
  | returns (trait_score harmony_ratio : ℚ) : AnalyzerOutcome
deriving DecidableEq

/-- Embeds the trait-score and harmony-ratio selection of the analyze
block (app.py lines 226 to 241): the analyzer result is used when the
call succeeds, and otherwise the local formulas are used silently. -/
def analysisStep (out : AnalyzerOutcome) (vals : List ℚ) : ℚ × ℚ :=
  match out with
  | .absent => (compute_trait_score vals, compute_harmony_ratio vals)
  | .raises => (compute_trait_score vals, compute_harmony_ratio vals)
  | .returns ts hr => (ts, hr)

/-- The check-in record assembled in the analyze block (app.py lines 248
to 258). -/
structure Entry where
  timestamp : String
  mood_label : String
  mood_score : ℤ
  mood_notes : String
  traits : List (String × ℚ)
  trait_score : ℚ
  harmony_ratio : ℚ
  perceived_stage : Option String
  auto_stage : String
deriving DecidableEq

/-- Embeds the record assembly of the analyze block (app.py lines 226 to
258): the scores come from the analysis step, the traits dict is built
from the four sliders, and the auto stage comes from map_disc_to_stage.
The skip sentinel of the perceived stage is modelled as none. -/
def mkEntry (timestamp mood_label : String) (mood_score : ℤ)
    (mood_notes : String) (d i s c : ℚ) (out : AnalyzerOutcome)
    (perceived_stage : Option String) : Entry :=
  let traits : List (String × ℚ) := [("D", d), ("I", i), ("S", s), ("C", c)]
  let scores := analysisStep out (traits.map Prod.snd)
  { timestamp := timestamp
    mood_label := mood_label
    mood_score := mood_score
    mood_notes := mood_notes
    traits := traits
    trait_score := scores.1
    harmony_ratio := scores.2
    perceived_stage := perceived_stage
    auto_stage := map_disc_to_stage d i s c }

/-- Embeds the compute-then-persist pass of the analyze block (app.py
lines 224 to 259): assemble the entry and append it to the store. -/
def analyze_and_save (timestamp mood_label : String) (mood_score : ℤ)
    (mood_notes : String) (d i s c : ℚ) (out : AnalyzerOutcome)
    (perceived_stage : Option String) (fs : StoreFile Entry) :
    Option (StoreFile Entry) :=
  save_checkin
    (mkEntry timestamp mood_label mood_score mood_notes d i s c out perceived_stage) fs

end Z9CoachLite

namespace Z9CoachLite

/-- C8: compute_trait_score is the arithmetic mean of the values for a
non-empty mapping and 0 for the empty mapping; on the all-zero four-trait
set both compute_trait_score and compute_harmony_ratio return 0. -/
theorem trait_score_is_mean :
    (∀ vals : List ℚ, vals ≠ [] → compute_trait_score vals = vals.sum / vals.length)
    ∧ compute_trait_score ([] : List ℚ) = 0
    ∧ compute_trait_score [0, 0, 0, 0] = 0
    ∧ compute_harmony_ratio [0, 0, 0, 0] = 0 := by
  refine ⟨fun vals h => ?_, rfl, by norm_num [compute_trait_score], ?_⟩
  · simp [compute_trait_score, h]
  · norm_num [compute_harmony_ratio, harmonyMean]

/-- Witness for trait_score_is_mean at a concrete non-empty input. -/
theorem trait_score_is_mean_witness :
    compute_trait_score [1, 2, 3] = ([1, 2, 3] : List ℚ).sum / ([1, 2, 3] : List ℚ).length :=
  trait_score_is_mean.1 [1, 2, 3] (by decide)

/-- C1: for a non-empty mapping with nonzero mean, compute_harmony_ratio
equals 100 minus twice the population variance, clamped into the interval
from 0 to 100; it is 0 on the empty mapping and on a zero mean; four equal
nonzero values give exactly 100; the set D 100, I 0, S 0, C 0 gives 0. -/
theorem harmony_ratio_spec :
    (∀ vals : List ℚ, vals ≠ [] → harmonyMean vals ≠ 0 →
        compute_harmony_ratio vals = max 0 (min 100 (100 - 2 * harmonyVariance vals)))
    ∧ compute_harmony_ratio ([] : List ℚ) = 0
    ∧ (∀ vals : List ℚ, vals ≠ [] → harmonyMean vals = 0 → compute_harmony_ratio vals = 0)
    ∧ (∀ x : ℚ, x ≠ 0 → compute_harmony_ratio [x, x, x, x] = 100)
    ∧ compute_harmony_ratio [100, 0, 0, 0] = 0 := by
  refine ⟨fun vals h hm => ?_, rfl, fun vals h hm => ?_, fun x hx => ?_, ?_⟩
  · simp only [compute_harmony_ratio, if_neg h, if_neg hm]
    generalize harmonyVariance vals = v
    simp only [max_def, min_def]
    split_ifs <;> linarith
  · simp [compute_harmony_ratio, h, hm]
  · have hmean : harmonyMean [x, x, x, x] = x := by
      simp [harmonyMean]; ring
    have hvar : harmonyVariance [x, x, x, x] = 0 := by
      simp [harmonyVariance, hmean]
    simp [compute_harmony_ratio, hmean, hvar, hx]
  · have hmean : harmonyMean [100, 0, 0, 0] = 25 := by
      norm_num [harmonyMean]
    have hvar : harmonyVariance [100, 0, 0, 0] = 1875 := by
      norm_num [harmonyVariance, hmean]
    norm_num [compute_harmony_ratio, hmean, hvar]

/-- Witness for harmony_ratio_spec at concrete inputs. -/
theorem harmony_ratio_spec_witness :
    compute_harmony_ratio [50, 50, 50, 50] = 100 :=
  harmony_ratio_spec.2.2.2.1 50 (by norm_num)

/-- C2: on any prior store state that loads as the sequence s, saving a
record r succeeds, and loading afterwards yields s with r appended: one
longer, r last, every earlier element unchanged in value and position. -/
theorem save_then_load (α : Type) (fs : StoreFile α) (s : List α) (r : α)
    (h : load_checkins fs = LoadResult.seq s) :
    save_checkin r fs = some (StoreFile.stored (s ++ [r]))
    ∧ load_checkins (StoreFile.stored (s ++ [r])) = LoadResult.seq (s ++ [r])
    ∧ (s ++ [r]).length = s.length + 1
    ∧ (s ++ [r]).getLast? = some r
    ∧ ∀ k, k < s.length → (s ++ [r])[k]? = s[k]? := by
  refine ⟨?_, rfl, by simp, by simp, fun k hk => ?_⟩
  · simp [save_checkin, h]
  · rw [List.getElem?_append, if_pos hk]

/-- Witness for save_then_load on a concrete one-element store. -/
theorem save_then_load_witness :
    save_checkin 7 (StoreFile.stored [5]) = some (StoreFile.stored ([5] ++ [7])) :=
  (save_then_load ℕ (StoreFile.stored [5]) [5] 7 rfl).1

/-- C3: load_checkins returns the empty sequence, raising nothing (it is
a total function of the file state), on an absent store file and on one
whose contents fail to read or to parse. -/
theorem load_checkins_missing_or_malformed (α : Type) :
    load_checkins (StoreFile.absent : StoreFile α) = LoadResult.seq []
    ∧ load_checkins (StoreFile.junk : StoreFile α) = LoadResult.seq [] :=
  ⟨rfl, rfl⟩

/-- C10: on a store file that exists but fails to parse, save_checkin
succeeds and overwrites the file with the one-element sequence holding
only the new record, discarding the unreadable contents, and a
subsequent load_checkins returns exactly that one-element sequence. -/
theorem save_on_malformed_store (α : Type) (r : α) :
    save_checkin r (StoreFile.junk : StoreFile α) = some (StoreFile.stored [r])
    ∧ load_checkins (StoreFile.stored [r]) = LoadResult.seq [r] :=
  ⟨rfl, rfl⟩

/-- C9: the recent-history view is the last at most 7 stored records
presented most recent first, that is the first 7 elements of the
reversed log, with length the minimum of 7 and the log length; on a log
of 10 records it yields records 10 down to 4. -/
theorem recent_history_spec :
    (∀ (α : Type) (l : List α),
        recent_history l = l.reverse.take 7
        ∧ (recent_history l).length = min 7 l.length)
    ∧ recent_history [1, 2, 3, 4, 5, 6, 7, 8, 9, 10] = [10, 9, 8, 7, 6, 5, 4] := by
  have key : ∀ (α : Type) (l : List α), recent_history l = l.reverse.take 7 := by
    intro α l
    show (l.drop (l.length - 7)).reverse = l.reverse.take 7
    rw [show l.drop (l.length - 7) = l.rtake 7 from rfl,
      List.rtake_eq_reverse_take_reverse, List.reverse_reverse]
  refine ⟨fun α l => ⟨key α l, ?_⟩, by decide⟩
  rw [key α l]
  simp

/-- C7: whenever the analyzer is absent or its call raises, the analysis
step uses the local formulas, compute_trait_score and
compute_harmony_ratio, and being a total function it propagates no
error. -/
theorem analyzer_fallback_spec (out : AnalyzerOutcome) (vals : List ℚ)
    (h : out = AnalyzerOutcome.absent ∨ out = AnalyzerOutcome.raises) :
    analysisStep out vals = (compute_trait_score vals, compute_harmony_ratio vals) := by
  rcases h with h | h <;> subst h <;> rfl

/-- Witness for analyzer_fallback_spec on a raising analyzer. -/
theorem analyzer_fallback_spec_witness :
    analysisStep AnalyzerOutcome.raises [40, 40, 40, 40]
      = (compute_trait_score [40, 40, 40, 40], compute_harmony_ratio [40, 40, 40, 40]) :=
  analyzer_fallback_spec AnalyzerOutcome.raises [40, 40, 40, 40] (Or.inr rfl)

/-- The local harmony formula is clamped into the interval from 0 to
100 by construction. -/
theorem compute_harmony_ratio_bounds (vals : List ℚ) :
    0 ≤ compute_harmony_ratio vals ∧ compute_harmony_ratio vals ≤ 100 := by
  unfold compute_harmony_ratio
  split_ifs
  · norm_num
  · norm_num
  · exact ⟨le_max_left 0 _, max_le (by norm_num) (min_le_left _ _)⟩

/-- C4 counterexample: when the analyzer returns a mapping whose harmony
ratio value is 250, the assembled record carries harmony_ratio 250,
outside the interval from 0 to 100, and is appended to the log as is. -/
theorem harmony_invariant_counterexample :
    (mkEntry "2025-01-01T00:00:00" "🙂 Steady" 3 "" 40 40 40 40
        (AnalyzerOutcome.returns 25 250) none).harmony_ratio = 250
    ∧ analyze_and_save "2025-01-01T00:00:00" "🙂 Steady" 3 "" 40 40 40 40
        (AnalyzerOutcome.returns 25 250) none (StoreFile.stored [])
      = some (StoreFile.stored
          [mkEntry "2025-01-01T00:00:00" "🙂 Steady" 3 "" 40 40 40 40
            (AnalyzerOutcome.returns 25 250) none])
    ∧ ¬ (mkEntry "2025-01-01T00:00:00" "🙂 Steady" 3 "" 40 40 40 40
        (AnalyzerOutcome.returns 25 250) none).harmony_ratio ≤ 100 := by
  refine ⟨rfl, rfl, ?_⟩
  norm_num [mkEntry, analysisStep]

/-- C4 amended: every record assembled while the analyzer is absent or
its call raises carries a harmony_ratio in the interval from 0 to 100;
when the analyzer returns a mapping, its harmony ratio value is stored
unclamped and may lie outside that interval. -/
theorem harmony_invariant_fallback (timestamp mood_label : String)
    (mood_score : ℤ) (mood_notes : String) (d i s c : ℚ)
    (out : AnalyzerOutcome) (perceived_stage : Option String)
    (h : out = AnalyzerOutcome.absent ∨ out = AnalyzerOutcome.raises) :
    0 ≤ (mkEntry timestamp mood_label mood_score mood_notes d i s c out
        perceived_stage).harmony_ratio
    ∧ (mkEntry timestamp mood_label mood_score mood_notes d i s c out
        perceived_stage).harmony_ratio ≤ 100 := by
  rcases h with h | h <;> subst h <;>
    simpa [mkEntry, analysisStep] using compute_harmony_ratio_bounds [d, i, s, c]

/-- Witness for harmony_invariant_fallback at concrete inputs. -/
theorem harmony_invariant_fallback_witness :
    0 ≤ (mkEntry "t" "m" 3 "" 10 20 30 40 AnalyzerOutcome.absent none).harmony_ratio
    ∧ (mkEntry "t" "m" 3 "" 10 20 30 40 AnalyzerOutcome.absent none).harmony_ratio ≤ 100 :=
  harmony_invariant_fallback "t" "m" 3 "" 10 20 30 40 AnalyzerOutcome.absent none
    (Or.inl rfl)

/-- The Python max keeps D when no later trait is strictly greater. -/
theorem dominantTrait_eq_D {d i s c : ℚ} (h1 : ¬ i > d) (h2 : ¬ s > d)
    (h3 : ¬ c > d) : dominantTrait d i s c = "D" := by
  unfold dominantTrait
  dsimp only [List.foldl]
  rw [if_neg h1, if_neg h2, if_neg h3]

/-- The Python max picks I when I strictly beats D and no later trait
strictly beats I. -/
theorem dominantTrait_eq_I {d i s c : ℚ} (h1 : i > d) (h2 : ¬ s > i)
    (h3 : ¬ c > i) : dominantTrait d i s c = "I" := by
  unfold dominantTrait
  dsimp only [List.foldl]
  rw [if_pos h1, if_neg h2, if_neg h3]

/-- The Python max picks S when S strictly beats both D and I and C does
not strictly beat S. -/
theorem dominantTrait_eq_S {d i s c : ℚ} (hd : s > d) (hi : s > i)
    (hc : ¬ c > s) : dominantTrait d i s c = "S" := by
  unfold dominantTrait
  dsimp only [List.foldl]
  by_cases h1 : i > d
  · rw [if_pos h1, if_pos hi, if_neg hc]
  · rw [if_neg h1, if_pos hd, if_neg hc]

/-- The Python max picks C when C strictly beats D, I and S. -/
theorem dominantTrait_eq_C {d i s c : ℚ} (hd : c > d) (hi : c > i)
    (hs : c > s) : dominantTrait d i s c = "C" := by
  unfold dominantTrait
  dsimp only [List.foldl]
  by_cases h1 : i > d
  · by_cases h2 : s > i
    · rw [if_pos h1, if_pos h2, if_pos hs]
    · rw [if_pos h1, if_neg h2, if_pos hi]
  · by_cases h2 : s > d
    · rw [if_neg h1, if_pos h2, if_pos hs]
    · rw [if_neg h1, if_neg h2, if_pos hd]

/-- C6: the fallback map_disc_to_stage returns the static table entry of
the trait with maximum magnitude, ties broken in the declaration order
D, I, S, C; the first branch of stage_spec shows that a strictly
greatest D yields the fixed D label, and since stage_spec only produces
the four table entries the default Identity branch of the lookup is
never taken on four-key inputs; the second conjunct states that
unreachability directly: the table lookup of the dominant trait always
succeeds, so the getD default is never consulted. -/
theorem map_disc_to_stage_spec (d i s c : ℚ) :
    map_disc_to_stage d i s c = stage_spec d i s c
    ∧ (discStageTable.lookup (dominantTrait d i s c)).isSome = true := by
  constructor
  case right =>
    unfold dominantTrait
    dsimp only [List.foldl]
    split_ifs <;> rfl
  unfold map_disc_to_stage stage_spec
  by_cases hD : d ≥ i ∧ d ≥ s ∧ d ≥ c
  · rw [if_pos hD,
      dominantTrait_eq_D (not_lt.2 hD.1) (not_lt.2 hD.2.1) (not_lt.2 hD.2.2)]
    rfl
  · rw [if_neg hD]
    by_cases hI : i ≥ s ∧ i ≥ c
    · rw [if_pos hI]
      have hid : i > d := by
        by_contra hle
        push_neg at hle
        exact hD ⟨hle, le_trans hI.1 hle, le_trans hI.2 hle⟩
      rw [dominantTrait_eq_I hid (not_lt.2 hI.1) (not_lt.2 hI.2)]
      rfl
    · rw [if_neg hI]
      by_cases hS : s ≥ c
      · rw [if_pos hS]
        have hsi : s > i := by
          rcases not_and_or.1 hI with h | h
          · exact not_le.1 h
          · exact lt_of_lt_of_le (not_le.1 h) hS
        have hsd : s > d := by
          by_contra hle
          push_neg at hle
          exact hD ⟨le_of_lt (lt_of_lt_of_le hsi hle), hle,
            le_trans hS hle⟩
        rw [dominantTrait_eq_S hsd hsi (not_lt.2 hS)]
        rfl
      · rw [if_neg hS]
        have hcs : c > s := not_le.1 hS
        have hci : c > i := by
          rcases not_and_or.1 hI with h | h
          · exact lt_trans (not_le.1 h) hcs
          · exact not_le.1 h
        have hcd : c > d := by
          by_contra hle
          push_neg at hle
          exact hD ⟨le_of_lt (lt_of_lt_of_le hci hle),
            le_of_lt (lt_of_lt_of_le hcs hle), hle⟩
        rw [dominantTrait_eq_C hcd hci hcs]
        rfl

/-- C5: on a four-key trait mapping, summarize_traits yields exactly one
line per trait in the order D, I, S, C; each percentage is the value
over the total (the sum of the values, or 1 when that sum is 0) times
100; each label follows the threshold chain dominant at 40, supporting
at 25, background above 0, else inactive; and when the total is
positive the four percentages sum to exactly 100. -/
theorem summarize_traits_spec (dv iv sv cv : ℚ) :
    ((summarize_traits [("D", dv), ("I", iv), ("S", sv), ("C", cv)]).map
        TraitLine.trait = ["D", "I", "S", "C"])
    ∧ ((summarize_traits [("D", dv), ("I", iv), ("S", sv), ("C", cv)]).map
          TraitLine.pct
        = [dv / (if dv + iv + sv + cv = 0 then 1 else dv + iv + sv + cv) * 100,
            iv / (if dv + iv + sv + cv = 0 then 1 else dv + iv + sv + cv) * 100,
            sv / (if dv + iv + sv + cv = 0 then 1 else dv + iv + sv + cv) * 100,
            cv / (if dv + iv + sv + cv = 0 then 1 else dv + iv + sv + cv) * 100])
    ∧ (∀ ln ∈ summarize_traits [("D", dv), ("I", iv), ("S", sv), ("C", cv)],
        ln.label = if ln.pct ≥ 40 then "dominant"
          else if ln.pct ≥ 25 then "supporting"
          else if ln.pct > 0 then "background"
          else "inactive")
    ∧ (0 < dv + iv + sv + cv →
        ((summarize_traits [("D", dv), ("I", iv), ("S", sv), ("C", cv)]).map
          TraitLine.pct).sum = 100) := by
  have hsum : (([("D", dv), ("I", iv), ("S", sv), ("C", cv)] :
      List (String × ℚ)).map Prod.snd).sum = dv + iv + sv + cv := by
    simp
    ring
  refine ⟨?_, ?_, ?_, ?_⟩
  · simp [summarize_traits, List.lookup]
  · simp only [summarize_traits, hsum]
    simp [List.lookup]
  · intro ln hln
    simp only [summarize_traits, hsum] at hln
    simp [List.lookup] at hln
    rcases hln with h | h | h | h <;> subst h <;> simp
  · intro hpos
    have hT : (if dv + iv + sv + cv = 0 then (1 : ℚ) else dv + iv + sv + cv)
        = dv + iv + sv + cv := if_neg (ne_of_gt hpos)
    simp only [summarize_traits, hsum, hT]
    simp [List.lookup]
    field_simp
    ring

/-- Witness for summarize_traits_spec on the balanced default sliders. -/
theorem summarize_traits_spec_witness :
    ((summarize_traits [("D", 40), ("I", 40), ("S", 40), ("C", 40)]).map
      TraitLine.pct).sum = 100 :=
  (summarize_traits_spec 40 40 40 40).2.2.2 (by norm_num)

end Z9CoachLite
